import Mathlib

/-!
# internal/lpac/cmd.go: the lpac subprocess bridge

A shallow embedding of `Cmder.Run`, `Cmder.Terminate`, `Cmder.handleOutput`,
`Cmder.handleLPAResponse`, `Cmder.handleProgress` and `Cmder.handleAPDU`.

Go's effects are made explicit: every function that touches the world takes a
`State` and returns the new `State` together with its Go `error` result
(`none` is `nil`).  The state carries the transport lock counter, the caller's
destination value and a trace of every externally visible operation.  The
collaborators outside the file (the JSON text scanner, the transport, the
subprocess's input pipe, the progress callback, the destination's decoder) are
parameters; each may answer differently depending on the trace so far.
-/

namespace Lpac

/-! ## JSON documents and `encoding/json` decoding -/

/-- A JSON document as `encoding/json` sees it once the text has been scanned.
A number written as an integer literal is `int`; a number with a fraction or an
exponent is `float` and keeps its literal. -/
inductive Json where
  | null
  | bool (b : Bool)
  | int (n : Int)
  | float (lit : String)
  | str (s : String)
  | arr (items : List Json)
  | obj (members : List (String × Json))

/-- The JSON kinds `encoding/json` names in an `UnmarshalTypeError`. -/
inductive JsonKind where
  | bool
  | number
  | string
  | array
  | object
  deriving DecidableEq, Repr

/-- Go `error` values that occur in this file.  `invalidJSON` is
`*json.SyntaxError`, `unmarshalType` is `*json.UnmarshalTypeError` (of which
only the JSON kind met is kept), `errorsNew` is the value of
`errors.New(text)`, whose `Error()` is `text`, and `external` is an error
handed back by a collaborator (exec, transport, pipe, callback). -/
inductive GoError where
  | invalidJSON (msg : String)
  | unmarshalType (value : JsonKind)
  | errorsNew (text : String)
  | external (text : String)
  deriving DecidableEq, Repr

/-- A `json.RawMessage`: `none` is the nil (empty) message of a field that was
never present, `some j` the raw text of the value `j`. -/
abbrev RawMessage := Option Json

/-- Byte strings exchanged with the transport. -/
abbrev Bytes := List Nat

/-- Decoding a JSON value into a Go `string` variable holding `cur`:
`null` leaves it unchanged, a string is stored, anything else is an
`UnmarshalTypeError`. -/
def unmarshalString (j : Json) (cur : String) : Except GoError String :=
  match j with
  | .null => .ok cur
  | .str s => .ok s
  | .bool _ => .error (.unmarshalType .bool)
  | .int _ => .error (.unmarshalType .number)
  | .float _ => .error (.unmarshalType .number)
  | .arr _ => .error (.unmarshalType .array)
  | .obj _ => .error (.unmarshalType .object)

/-- Decoding a JSON value into a Go `int` variable (64 bits) holding `cur`:
`null` leaves it unchanged, an integer literal in range is stored, anything
else is an `UnmarshalTypeError`. -/
def unmarshalInt (j : Json) (cur : Int) : Except GoError Int :=
  match j with
  | .null => .ok cur
  | .int n =>
    if -(2 : Int) ^ 63 ≤ n ∧ n < (2 : Int) ^ 63 then .ok n
    else .error (.unmarshalType .number)
  | .float _ => .error (.unmarshalType .number)
  | .bool _ => .error (.unmarshalType .bool)
  | .str _ => .error (.unmarshalType .string)
  | .arr _ => .error (.unmarshalType .array)
  | .obj _ => .error (.unmarshalType .object)

/-- The parts of `encoding/json` that are taken as given. -/
structure JsonLib where
  /-- The scanner of `json.Unmarshal`: the document a text denotes, or the
  `SyntaxError` for a text that is not valid JSON. -/
  parse : String → Except GoError Json
  /-- The case folding under which object keys match struct fields. -/
  foldName : String → String

/-- The struct field an object key is stored in: the field whose name equals
the key, else the first field whose folded name equals the folded key. -/
def findField (lib : JsonLib) (fields : List String) (key : String) : Option String :=
  match fields.find? (fun f => f = key) with
  | some f => some f
  | none => fields.find? (fun f => lib.foldName f = lib.foldName key)

/-- The first error met while decoding is the one `json.Unmarshal` returns. -/
def saveError (saved : Option GoError) (res : Except GoError α) : Option GoError :=
  match saved, res with
  | some e, _ => some e
  | none, .error e => some e
  | none, .ok _ => none

/-- The value a field holds after a decode attempt: unchanged on error. -/
def stored (cur : α) (res : Except GoError α) : α :=
  match res with
  | .ok v => v
  | .error _ => cur

/-- Decoding a struct: `null` changes nothing, an object is decoded member by
member with `step`, any other value is an `UnmarshalTypeError`.  The result is
the error when one was saved, the filled struct otherwise. -/
def unmarshalStruct (zero : α)
    (step : String → Json → α × Option GoError → α × Option GoError)
    (j : Json) : Except GoError α :=
  match j with
  | .null => .ok zero
  | .obj members =>
    match members.foldl (fun acc kv => step kv.1 kv.2 acc) (zero, none) with
    | (_, some e) => .error e
    | (v, none) => .ok v
  | .bool _ => .error (.unmarshalType .bool)
  | .int _ => .error (.unmarshalType .number)
  | .float _ => .error (.unmarshalType .number)
  | .str _ => .error (.unmarshalType .string)
  | .arr _ => .error (.unmarshalType .array)

/-- The call `json.Unmarshal(raw, &v)` on a raw message: the empty message is
not valid JSON. -/
def unmarshalRaw (dec : Json → Except GoError α) (raw : RawMessage) : Except GoError α :=
  match raw with
  | none => .error (.invalidJSON "unexpected end of JSON input")
  | some j => dec j

/-! ## The wire types (types.go) -/

/-- Modelled from the spec: the envelope kind `apdu` of the wire protocol
(the constant `CommandStdioAPDU`, declared outside cmd.go). -/
def CommandStdioAPDU : String := "apdu"

/-- Modelled from the spec: the envelope kind `lpa` of the wire protocol
(the constant `CommandStdioLPA`, declared outside cmd.go). -/
def CommandStdioLPA : String := "lpa"

/-- Modelled from the spec: the envelope kind `progress` of the wire protocol
(the constant `CommandStdioProgress`, declared outside cmd.go). -/
def CommandStdioProgress : String := "progress"

/-- Modelled from the spec: the function selector `transmit` of an `apdu`
payload (the constant `CommandAPDUFuncTransmit`, declared outside cmd.go). -/
def CommandAPDUFuncTransmit : String := "transmit"

/-- Modelled from the spec: the envelope `type` and `payload` of one output
line (the struct `CommandOutput`, declared outside cmd.go). -/
structure CommandOutput where
  Type_ : String := ""
  Payload : RawMessage := none

/-- Modelled from the spec: the `lpa` payload `code`, `message`, `data`
(the struct `LPAPyaload`, declared outside cmd.go). -/
structure LPAPyaload where
  Code : Int := 0
  Message : String := ""
  Data : RawMessage := none

/-- Modelled from the spec: the `progress` payload `message` and optional
`data` (the struct `ProgressPayload`, declared outside cmd.go). -/
structure ProgressPayload where
  Message : String := ""
  Data : RawMessage := none

/-- Modelled from the spec: the `apdu` payload `func` and `param`
(the struct `CommandAPDUPayload`, declared outside cmd.go). -/
structure CommandAPDUPayload where
  Func : String := ""
  Param : Bytes := []

/-- Modelled from the spec: the reply payload `data` and `ecode`
(the struct `CommandAPDUInputPayload`, declared outside cmd.go). -/
structure CommandAPDUInputPayload where
  ECode : Int := 0
  Data : Bytes := []
  deriving DecidableEq, Repr

/-- Modelled from the spec: the reply envelope written to the subprocess
(the struct `CommandAPDUInput`, declared outside cmd.go). -/
structure CommandAPDUInput where
  Type_ : String
  Payload : CommandAPDUInputPayload
  deriving DecidableEq, Repr

/-- Decoding one object member into a `CommandOutput`. -/
def CommandOutput.step (lib : JsonLib) (key : String) (v : Json)
    (acc : CommandOutput × Option GoError) : CommandOutput × Option GoError :=
  match findField lib ["type", "payload"] key with
  | some "type" =>
    let r := unmarshalString v acc.1.Type_
    ({ acc.1 with Type_ := stored acc.1.Type_ r }, saveError acc.2 r)
  | some "payload" => ({ acc.1 with Payload := some v }, acc.2)
  | _ => acc

/-- Decoding one object member into an `LPAPyaload`. -/
def LPAPyaload.step (lib : JsonLib) (key : String) (v : Json)
    (acc : LPAPyaload × Option GoError) : LPAPyaload × Option GoError :=
  match findField lib ["code", "message", "data"] key with
  | some "code" =>
    let r := unmarshalInt v acc.1.Code
    ({ acc.1 with Code := stored acc.1.Code r }, saveError acc.2 r)
  | some "message" =>
    let r := unmarshalString v acc.1.Message
    ({ acc.1 with Message := stored acc.1.Message r }, saveError acc.2 r)
  | some "data" => ({ acc.1 with Data := some v }, acc.2)
  | _ => acc

/-- Decoding one object member into a `ProgressPayload`. -/
def ProgressPayload.step (lib : JsonLib) (key : String) (v : Json)
    (acc : ProgressPayload × Option GoError) : ProgressPayload × Option GoError :=
  match findField lib ["message", "data"] key with
  | some "message" =>
    let r := unmarshalString v acc.1.Message
    ({ acc.1 with Message := stored acc.1.Message r }, saveError acc.2 r)
  | some "data" => ({ acc.1 with Data := some v }, acc.2)
  | _ => acc

/-- Decoding one object member into a `CommandAPDUPayload`.  How `param`
is written on the wire is not fixed by the spec, so the decoder of that field
is the parameter `unmarshalParam`. -/
def CommandAPDUPayload.step (lib : JsonLib)
    (unmarshalParam : Json → Bytes → Except GoError Bytes) (key : String) (v : Json)
    (acc : CommandAPDUPayload × Option GoError) : CommandAPDUPayload × Option GoError :=
  match findField lib ["func", "param"] key with
  | some "func" =>
    let r := unmarshalString v acc.1.Func
    ({ acc.1 with Func := stored acc.1.Func r }, saveError acc.2 r)
  | some "param" =>
    let r := unmarshalParam v acc.1.Param
    ({ acc.1 with Param := stored acc.1.Param r }, saveError acc.2 r)
  | _ => acc

/-! ## The world -/

/-- The externally visible operations of a session. -/
inductive Op where
  /-- The call `c.APDU.Lock()`. -/
  | lock
  /-- The deferred `c.APDU.Unlock()`. -/
  | unlock
  /-- The call `cmd.Start()` with the arguments of the command. -/
  | start (arguments : List String)
  /-- The deferred `stdout.Close()`. -/
  | closeStdout
  /-- The deferred `stdin.Close()`. -/
  | closeStdin
  /-- One output line handed to `handleOutput`. -/
  | dispatch (output : String)
  /-- The call `c.APDU.Transmit(param)`. -/
  | transmit (param : Bytes)
  /-- One reply envelope encoded onto the subprocess's input. -/
  | write (reply : CommandAPDUInput)
  /-- One call of the progress callback. -/
  | progress (step : String)
  /-- The call `json.Unmarshal(lpaPayload.Data, dst)`. -/
  | unmarshalDst
  deriving DecidableEq, Repr

/-- A trace entry: the operation and the value of the lock counter while it
happened (for `lock` and `unlock`: right after it). -/
structure Event where
  op : Op
  held : Int
  deriving DecidableEq, Repr

/-- The state a session acts on: the transport's lock counter, the trace of
operations so far and the value behind the caller's `dst` pointer. -/
structure State (δ : Type) where
  lock : Int
  trace : List Event
  dst : δ

/-- Appends an operation to the trace, stamped with the lock counter. -/
def State.log (s : State δ) (op : Op) : State δ :=
  { s with trace := s.trace ++ [⟨op, s.lock⟩] }

/-- The call `c.APDU.Lock()`. -/
def State.Lock (s : State δ) : State δ :=
  { s with lock := s.lock + 1, trace := s.trace ++ [⟨.lock, s.lock + 1⟩] }

/-- The call `c.APDU.Unlock()`. -/
def State.Unlock (s : State δ) : State δ :=
  { s with lock := s.lock - 1, trace := s.trace ++ [⟨.unlock, s.lock - 1⟩] }

/-- The collaborators of a `Cmder`. -/
structure Env extends JsonLib where
  /-- The decoder of the `param` field of an `apdu` payload. -/
  unmarshalParam : Json → Bytes → Except GoError Bytes
  /-- The table `HumanReadableSteps` (declared outside cmd.go). -/
  HumanReadableSteps : String → Option String
  /-- The transport's `Transmit`, given the trace so far. -/
  Transmit : List Event → Bytes → Except GoError Bytes
  /-- The outcome of writing an encoded reply to the subprocess's input,
  given the trace so far. -/
  write : List Event → CommandAPDUInput → Option GoError

/-- The type `Progress`: a callback from a step label to an error, which may
depend on the trace so far. -/
abbrev Progress := List Event → String → Option GoError

/-- A non-nil `dst`: how `json.Unmarshal` stores a document in the value it
points to, giving the value afterwards and the error. -/
abbrev Target (δ : Type) := Json → δ → δ × Option GoError

/-! ## cmd.go -/

/-- The call `json.Unmarshal([]byte(output), &commandOutput)`. -/
def unmarshalCommandOutput (env : Env) (output : String) : Except GoError CommandOutput :=
  match env.parse output with
  | .error e => .error e
  | .ok j => unmarshalStruct {} (CommandOutput.step env.toJsonLib) j

/-- The call `json.Unmarshal(payload, &lpaPayload)`. -/
def unmarshalLPAPyaload (env : Env) (payload : RawMessage) : Except GoError LPAPyaload :=
  unmarshalRaw (unmarshalStruct {} (LPAPyaload.step env.toJsonLib)) payload

/-- The call `json.Unmarshal(payload, &progressPayload)`. -/
def unmarshalProgressPayload (env : Env) (payload : RawMessage) :
    Except GoError ProgressPayload :=
  unmarshalRaw (unmarshalStruct {} (ProgressPayload.step env.toJsonLib))
    payload

/-- The call `json.Unmarshal(payload, &command)`. -/
def unmarshalCommandAPDUPayload (env : Env) (payload : RawMessage) :
    Except GoError CommandAPDUPayload :=
  unmarshalRaw (unmarshalStruct {}
    (CommandAPDUPayload.step env.toJsonLib env.unmarshalParam)) payload

/-- The call `json.NewEncoder(input).Encode(reply)`: one write to the
subprocess's input, whose error is returned. -/
def Encode (env : Env) (reply : CommandAPDUInput) (s : State δ) : State δ × Option GoError :=
  (s.log (.write reply), env.write s.trace reply)

/-- The method `Cmder.handleAPDU`. -/
def handleAPDU (env : Env) (payload : RawMessage) (s : State δ) : State δ × Option GoError :=
  match unmarshalCommandAPDUPayload env payload with
  | .error err => (s, some err)
  | .ok command =>
    if command.Func = CommandAPDUFuncTransmit then
      match env.Transmit s.trace command.Param with
      | .error err => (s.log (.transmit command.Param), some err)
      | .ok received =>
        Encode env { Type_ := CommandStdioAPDU, Payload := { Data := received } }
          (s.log (.transmit command.Param))
    else
      Encode env { Type_ := CommandStdioAPDU, Payload := { ECode := 0 } } s

/-- The method `Cmder.handleProgress`. -/
def handleProgress (env : Env) (payload : RawMessage) (progress : Progress) (s : State δ) :
    State δ × Option GoError :=
  match unmarshalProgressPayload env payload with
  | .error err => (s, some err)
  | .ok progressPayload =>
    match env.HumanReadableSteps progressPayload.Message with
    | some step => (s.log (.progress step), progress s.trace step)
    | none =>
      (s.log (.progress progressPayload.Message), progress s.trace progressPayload.Message)

/-- The call `json.Unmarshal(data, dst)` for a non-nil `dst`: the empty
message is rejected before `dst` is touched, any other is stored as the
target decides. -/
def unmarshalInto (target : Target δ) (data : RawMessage) (s : State δ) :
    State δ × Option GoError :=
  match data with
  | none => (s.log .unmarshalDst, some (.invalidJSON "unexpected end of JSON input"))
  | some j => ({ s with dst := (target j s.dst).1 }.log .unmarshalDst, (target j s.dst).2)

/-- The method `Cmder.handleLPAResponse`; `dst` is `none` for a nil `dst`. -/
def handleLPAResponse (env : Env) (payload : RawMessage) (dst : Option (Target δ))
    (s : State δ) : State δ × Option GoError :=
  match unmarshalLPAPyaload env payload with
  | .error err => (s, some err)
  | .ok lpaPayload =>
    if lpaPayload.Code ≠ 0 then
      match unmarshalRaw (fun j => unmarshalString j "") lpaPayload.Data with
      | .error _ => (s, some (.errorsNew lpaPayload.Message))
      | .ok errorMessage =>
        if errorMessage = "" then (s, some (.errorsNew lpaPayload.Message))
        else (s, some (.errorsNew errorMessage))
    else
      match dst with
      | some target => unmarshalInto target lpaPayload.Data s
      | none => (s, none)

/-- The method `Cmder.handleOutput`. -/
def handleOutput (env : Env) (output : String) (dst : Option (Target δ))
    (progress : Option Progress) (s : State δ) : State δ × Option GoError :=
  let s := s.log (.dispatch output)
  match unmarshalCommandOutput env output with
  | .error err => (s, some err)
  | .ok commandOutput =>
    if commandOutput.Type_ = CommandStdioAPDU then
      handleAPDU env commandOutput.Payload s
    else if commandOutput.Type_ = CommandStdioLPA then
      handleLPAResponse env commandOutput.Payload dst s
    else if commandOutput.Type_ = CommandStdioProgress then
      match progress with
      | some p => handleProgress env commandOutput.Payload p s
      | none => (s, none)
    else (s, none)

/-- The loop `for scanner.Scan()` of `Run` over the lines the subprocess
emits: the first line whose handling returns an error ends it. -/
def scan (env : Env) (dst : Option (Target δ)) (progress : Option Progress) :
    List String → State δ → State δ × Option GoError
  | [], s => (s, none)
  | output :: rest, s =>
    match handleOutput env output dst progress s with
    | (s1, some err) => (s1, some err)
    | (s1, none) => scan env dst progress rest s1

/-- The deferred calls of `Run`, in the order they run. -/
def deferred (s : State δ) : State δ :=
  ((s.log .closeStdin).log .closeStdout).Unlock

/-- The method `Cmder.Run`.  `proc` is the outcome of `cmd.Start()`: its
error, or the lines the scanner yields from the output of the started
subprocess.  The two goroutines `Run` starts act on the subprocess handle
and on the channel `terminated` only; the watcher's receive is `Chan.recv`. -/
def Run (env : Env) (arguments : List String) (proc : Except GoError (List String))
    (dst : Option (Target δ)) (progress : Option Progress) (s : State δ) :
    State δ × Option GoError :=
  let s := (s.Lock).log (.start arguments)
  match proc with
  | .error err => (deferred s, some err)
  | .ok lines =>
    let r := scan env dst progress lines s
    (deferred r.1, r.2)

/-! ## The cancellation channel -/

/-- A Go channel of `struct{}`: its capacity, the number of buffered values
and the number of goroutines blocked receiving from it. -/
structure Chan where
  cap : Nat
  buf : Nat
  recvq : Nat
  deriving DecidableEq, Repr

/-- A send statement `ch <- struct{}{}`: the value goes to a blocked
receiver if there is one, else into the buffer if there is room; otherwise
the sender blocks, which is `none`. -/
def Chan.send (ch : Chan) : Option Chan :=
  if 0 < ch.recvq then some { ch with recvq := ch.recvq - 1 }
  else if ch.buf < ch.cap then some { ch with buf := ch.buf + 1 }
  else none

/-- A receive `<-ch` by a goroutine of its own, as the watcher that `Run`
starts does on `c.terminated`: it takes a buffered value if there is one,
else the goroutine joins the blocked receivers. -/
def Chan.recv (ch : Chan) : Chan :=
  if 0 < ch.buf then { ch with buf := ch.buf - 1 }
  else { ch with recvq := ch.recvq + 1 }

/-- The field `terminated` as `NewCmder` makes it: `make(chan struct{}, 1)`. -/
def NewCmder : Chan := { cap := 1, buf := 0, recvq := 0 }

/-- The method `Cmder.Terminate`: `c.terminated <- struct{}{}`.  The result
is the channel after the call returns, `none` when the call blocks. -/
def Terminate (terminated : Chan) : Option Chan :=
  terminated.send

/-! ## A sample session -/

/-- A sample scanner: five named output lines, every other text is invalid. -/
def demoParse : String → Except GoError Json
  | "tx" => .ok (.obj [("type", .str "apdu"),
      ("payload", .obj [("func", .str "transmit"), ("param", .str "AB")])])
  | "nop" => .ok (.obj [("type", .str "apdu"), ("payload", .obj [("func", .str "open")])])
  | "step" => .ok (.obj [("type", .str "progress"),
      ("payload", .obj [("message", .str "es9p_get_bound_profile_package")])])
  | "done" => .ok (.obj [("type", .str "lpa"),
      ("payload", .obj [("code", .int 0), ("message", .str "success"), ("data", .str "ok")])])
  | "fail" => .ok (.obj [("type", .str "lpa"),
      ("payload", .obj [("code", .int 1), ("message", .str "failed"),
        ("data", .str "bad profile")])])
  | _ => .error (.invalidJSON "invalid character")

/-- A sample `param` decoder: the bytes of a JSON string. -/
def demoParam (j : Json) (cur : Bytes) : Except GoError Bytes :=
  match j with
  | .null => .ok cur
  | .str t => .ok (t.data.map Char.toNat)
  | .bool _ => .error (.unmarshalType .bool)
  | .int _ => .error (.unmarshalType .number)
  | .float _ => .error (.unmarshalType .number)
  | .arr _ => .error (.unmarshalType .array)
  | .obj _ => .error (.unmarshalType .object)

/-- A sample step table with one entry. -/
def demoSteps : String → Option String
  | "es9p_get_bound_profile_package" => some "Downloading profile"
  | _ => none

/-- A sample world whose transport echoes the command and whose pipe
accepts every write. -/
def demoEnv : Env where
  parse := demoParse
  foldName := id
  unmarshalParam := demoParam
  HumanReadableSteps := demoSteps
  Transmit := fun _ param => .ok (param ++ [144, 0])
  write := fun _ _ => none

/-- The sample world with a transport that fails every call. -/
def brokenEnv : Env :=
  { demoEnv with Transmit := fun _ _ => .error (.external "card removed") }

/-- A sample destination: a string variable. -/
def demoTarget : Target String :=
  fun j cur => match unmarshalString j cur with
    | .ok v => (v, none)
    | .error e => (cur, some e)

/-- A sample callback that accepts every step. -/
def demoProgress : Progress := fun _ _ => none

/-- The state before a sample session: lock free, nothing traced. -/
def demoState : State String := { lock := 0, trace := [], dst := "" }

/-- The states a channel can be in: the buffer within capacity, and no
receiver blocked while a value is buffered. -/
def Chan.WF (ch : Chan) : Prop :=
  ch.buf ≤ ch.cap ∧ (0 < ch.buf → ch.recvq = 0)

instance (ch : Chan) : Decidable ch.WF := by
  unfold Chan.WF
  infer_instance

/-- The label `handleProgress` hands to the callback, as the spec words it:
the mapped label for a code in the table, the raw code otherwise. -/
def progressLabel (env : Env) (code : String) : String :=
  (env.HumanReadableSteps code).getD code

/-- The text of the error for an `lpa` payload with a nonzero code, as the
spec words it: the string in the data blob when the blob is a non-empty JSON
string, the message field in every other case. -/
def lpaErrorText (p : LPAPyaload) : String :=
  match p.Data with
  | some (.str t) => if t = "" then p.Message else t
  | _ => p.Message

/-- The reply `handleAPDU` writes for a selector it does not know: type
`apdu`, status code zero, no data. -/
def ackReply : CommandAPDUInput :=
  { Type_ := "apdu", Payload := { ECode := 0, Data := [] } }

/-- The reply `handleAPDU` writes after a successful transmit: type `apdu`
carrying the received bytes. -/
def dataReply (received : Bytes) : CommandAPDUInput :=
  { Type_ := "apdu", Payload := { ECode := 0, Data := received } }

/-- The state in which `Run` enters its scan loop. -/
def entered (arguments : List String) (s : State δ) : State δ :=
  (s.Lock).log (.start arguments)

/-- The entries of a stretch of trace during which the lock counter stays at
`k`: each is stamped `k` and none is a lock or an unlock. -/
def Quiet (k : Int) (evs : List Event) : Prop :=
  ∀ e ∈ evs, e.held = k ∧ e.op ≠ .lock ∧ e.op ≠ .unlock

/-- The state `s1` comes from `s` by operations that leave the lock alone. -/
def Extends (s s1 : State δ) : Prop :=
  s1.lock = s.lock ∧ ∃ evs, s1.trace = s.trace ++ evs ∧ Quiet s.lock evs

/-! ## Handlers -/

/-- C9: for a progress payload that decodes, `handleProgress` calls the
callback exactly once (one `progress` entry is appended to the trace, nothing
else changes) and returns exactly what the callback returns; the argument is
the mapped label when the code is in the table and the raw code when not. -/
theorem handleProgress_calls_once (δ : Type) (env : Env) (payload : RawMessage)
    (progress : Progress) (s : State δ) (p : ProgressPayload)
    (hp : unmarshalProgressPayload env payload = .ok p) :
    handleProgress env payload progress s
        = ({ s with trace := s.trace ++ [⟨.progress (progressLabel env p.Message), s.lock⟩] },
           progress s.trace (progressLabel env p.Message))
      ∧ (∀ label, env.HumanReadableSteps p.Message = some label →
          progressLabel env p.Message = label)
      ∧ (env.HumanReadableSteps p.Message = none → progressLabel env p.Message = p.Message) := by
  refine ⟨?_, ?_, ?_⟩
  · unfold handleProgress
    rw [hp]
    cases h : env.HumanReadableSteps p.Message <;>
      simp [progressLabel, h, State.log]
  · intro label h
    simp [progressLabel, h]
  · intro h
    simp [progressLabel, h]

/-- Witness of C9 in the sample world, on a code of the table. -/
theorem handleProgress_calls_once_witness :
    unmarshalProgressPayload demoEnv
        (some (.obj [("message", .str "es9p_get_bound_profile_package")]))
        = .ok { Message := "es9p_get_bound_profile_package" }
      ∧ (handleProgress demoEnv
          (some (.obj [("message", .str "es9p_get_bound_profile_package")]))
          demoProgress demoState).1.trace = [⟨.progress "Downloading profile", 0⟩] := by
  have h := handleProgress_calls_once String demoEnv
    (some (.obj [("message", .str "es9p_get_bound_profile_package")]))
    demoProgress demoState { Message := "es9p_get_bound_profile_package" } rfl
  refine ⟨rfl, ?_⟩
  rw [h.1]
  rfl

/-- C10: for an apdu payload that decodes and whose selector is not
`transmit`, `handleAPDU` makes no transport call and writes exactly one reply
(the only entry appended to the trace), of type `apdu` with status code zero
and no data, and returns the result of that write; a payload without selector
decodes to the empty selector and is such a payload. -/
theorem handleAPDU_other_selector (δ : Type) (env : Env) (payload : RawMessage)
    (s : State δ) (command : CommandAPDUPayload)
    (hd : unmarshalCommandAPDUPayload env payload = .ok command)
    (hf : command.Func ≠ CommandAPDUFuncTransmit) :
    handleAPDU env payload s
        = ({ s with trace := s.trace ++ [⟨.write ackReply, s.lock⟩] },
           env.write s.trace ackReply)
      ∧ handleAPDU env (some (.obj [])) s
        = ({ s with trace := s.trace ++ [⟨.write ackReply, s.lock⟩] },
           env.write s.trace ackReply) := by
  constructor
  · unfold handleAPDU
    rw [hd]
    simp [hf, Encode, State.log, ackReply, CommandStdioAPDU]
  · rfl

/-- Witness of C10 in the sample world, on the selector `open`. -/
theorem handleAPDU_other_selector_witness :
    unmarshalCommandAPDUPayload demoEnv (some (.obj [("func", .str "open")]))
        = .ok { Func := "open" }
      ∧ "open" ≠ CommandAPDUFuncTransmit
      ∧ (handleAPDU demoEnv (some (.obj [("func", .str "open")])) demoState).1.trace
        = [⟨.write ackReply, 0⟩] := by
  have h := handleAPDU_other_selector String demoEnv (some (.obj [("func", .str "open")]))
    demoState { Func := "open" } rfl (by decide)
  refine ⟨rfl, by decide, ?_⟩
  rw [h.1]
  rfl

/-- C2: for an lpa payload that decodes with a nonzero code,
`handleLPAResponse` returns a non-nil error and leaves the state (the
destination included) as it was; the error is `errors.New` of the string in
the data blob when that is a non-empty JSON string, and of the message field
when the data is absent, null, not a JSON string or the empty string. -/
theorem handleLPAResponse_nonzero (δ : Type) (env : Env) (payload : RawMessage)
    (dst : Option (Target δ)) (s : State δ) (p : LPAPyaload)
    (hp : unmarshalLPAPyaload env payload = .ok p) (hc : p.Code ≠ 0) :
    handleLPAResponse env payload dst s = (s, some (.errorsNew (lpaErrorText p)))
      ∧ (p.Data = none → lpaErrorText p = p.Message)
      ∧ (p.Data = some .null → lpaErrorText p = p.Message)
      ∧ (p.Data = some (.str "") → lpaErrorText p = p.Message)
      ∧ (∀ j, p.Data = some j → (∀ t, j ≠ .str t) → lpaErrorText p = p.Message)
      ∧ (∀ t, p.Data = some (.str t) → t ≠ "" → lpaErrorText p = t) := by
  refine ⟨?_, ?_, ?_, ?_, ?_, ?_⟩
  · unfold handleLPAResponse
    rw [hp]
    simp only [hc, ne_eq, not_false_eq_true, if_true]
    rcases p with ⟨code, message, data⟩
    cases data with
    | none => simp [unmarshalRaw, lpaErrorText]
    | some j =>
      cases j <;> simp [unmarshalRaw, unmarshalString, lpaErrorText]
      case str t => by_cases ht : t = "" <;> simp [ht]
  · intro h
    simp [lpaErrorText, h]
  · intro h
    simp [lpaErrorText, h]
  · intro h
    simp [lpaErrorText, h]
  · intro j h hj
    cases j <;> simp [lpaErrorText, h]
    case str t => exact absurd rfl (hj t)
  · intro t h ht
    simp [lpaErrorText, h, ht]

/-- Witness of C2: the payload with code 1, message `failed` and data
`bad profile` gives the error text `bad profile`; with data null it gives
`failed`. -/
theorem handleLPAResponse_nonzero_witness :
    handleLPAResponse demoEnv
        (some (.obj [("code", .int 1), ("message", .str "failed"),
          ("data", .str "bad profile")]))
        (some demoTarget) demoState = (demoState, some (.errorsNew "bad profile"))
      ∧ handleLPAResponse demoEnv
        (some (.obj [("code", .int 1), ("message", .str "failed"), ("data", .null)]))
        (some demoTarget) demoState = (demoState, some (.errorsNew "failed")) :=
  ⟨(handleLPAResponse_nonzero String demoEnv
      (some (.obj [("code", .int 1), ("message", .str "failed"),
        ("data", .str "bad profile")]))
      (some demoTarget) demoState
      { Code := 1, Message := "failed", Data := some (.str "bad profile") } rfl (by decide)).1,
   (handleLPAResponse_nonzero String demoEnv
      (some (.obj [("code", .int 1), ("message", .str "failed"), ("data", .null)]))
      (some demoTarget) demoState
      { Code := 1, Message := "failed", Data := some .null } rfl (by decide)).1⟩

/-- C3: for an lpa payload that decodes with code 0, `handleLPAResponse`
with a destination is exactly the call `json.Unmarshal(data, dst)`: its
error is returned and the destination is what that call leaves (for absent
data the call's error, with the destination untouched); without a
destination it returns nil and changes nothing, whatever the data. -/
theorem handleLPAResponse_zero (δ : Type) (env : Env) (payload : RawMessage)
    (s : State δ) (p : LPAPyaload)
    (hp : unmarshalLPAPyaload env payload = .ok p) (hc : p.Code = 0) :
    (∀ target : Target δ,
        handleLPAResponse env payload (some target) s = unmarshalInto target p.Data s
        ∧ (∀ j, p.Data = some j →
            (handleLPAResponse env payload (some target) s).2 = (target j s.dst).2
            ∧ (handleLPAResponse env payload (some target) s).1.dst = (target j s.dst).1)
        ∧ (p.Data = none →
            (handleLPAResponse env payload (some target) s).2
              = some (.invalidJSON "unexpected end of JSON input")
            ∧ (handleLPAResponse env payload (some target) s).1.dst = s.dst))
      ∧ handleLPAResponse env payload none s = (s, none) := by
  have h1 : ∀ dst : Option (Target δ), handleLPAResponse env payload dst s
      = match dst with
        | some target => unmarshalInto target p.Data s
        | none => (s, none) := by
    intro dst
    unfold handleLPAResponse
    rw [hp]
    simp [hc]
  refine ⟨fun target => ⟨h1 (some target), ?_, ?_⟩, h1 none⟩
  · intro j hj
    rw [h1 (some target)]
    simp [unmarshalInto, hj, State.log]
  · intro hn
    rw [h1 (some target)]
    simp [unmarshalInto, hn, State.log]

/-- Witness of C3 in the sample world: the data blob `ok` lands in the
string destination and nil is returned. -/
theorem handleLPAResponse_zero_witness :
    unmarshalLPAPyaload demoEnv
        (some (.obj [("code", .int 0), ("message", .str "success"), ("data", .str "ok")]))
        = .ok { Code := 0, Message := "success", Data := some (.str "ok") }
      ∧ (handleLPAResponse demoEnv
          (some (.obj [("code", .int 0), ("message", .str "success"), ("data", .str "ok")]))
          (some demoTarget) demoState).1.dst = "ok" := by
  have h := handleLPAResponse_zero String demoEnv
    (some (.obj [("code", .int 0), ("message", .str "success"), ("data", .str "ok")]))
    demoState { Code := 0, Message := "success", Data := some (.str "ok") } rfl rfl
  refine ⟨rfl, ?_⟩
  rw [((h.1 demoTarget).2.1 (.str "ok") rfl).2]
  rfl

/-- C4 fails as stated: in the sample world whose transport fails, a
well-formed `transmit` envelope leads to one transport call and to no reply
being written. -/
theorem handleAPDU_transmit_failure_writes_nothing :
    unmarshalCommandAPDUPayload brokenEnv
        (some (.obj [("func", .str "transmit"), ("param", .str "AB")]))
        = .ok { Func := "transmit", Param := [65, 66] }
      ∧ handleAPDU brokenEnv
          (some (.obj [("func", .str "transmit"), ("param", .str "AB")])) demoState
        = ({ demoState with trace := [⟨.transmit [65, 66], 0⟩] },
           some (.external "card removed")) :=
  ⟨rfl, rfl⟩

/-- C4 as amended: for an apdu payload that decodes with the selector
`transmit` and whose transport call succeeds, `handleAPDU` makes exactly one
call to `Transmit`, with the payload's parameter bytes, then writes exactly
one reply, of type `apdu` carrying exactly the received bytes, and returns
the result of that write; both entries are in the trace when it returns. -/
theorem handleAPDU_transmit_ok (δ : Type) (env : Env) (payload : RawMessage)
    (s : State δ) (command : CommandAPDUPayload) (received : Bytes)
    (hd : unmarshalCommandAPDUPayload env payload = .ok command)
    (hf : command.Func = CommandAPDUFuncTransmit)
    (ht : env.Transmit s.trace command.Param = .ok received) :
    handleAPDU env payload s
      = ({ s with trace := s.trace ++
            [⟨.transmit command.Param, s.lock⟩, ⟨.write (dataReply received), s.lock⟩] },
         env.write (s.trace ++ [⟨.transmit command.Param, s.lock⟩]) (dataReply received)) := by
  unfold handleAPDU
  rw [hd]
  simp [hf, ht, Encode, State.log, dataReply, CommandStdioAPDU]

/-- Witness of the amended C4 in the sample world, whose transport echoes. -/
theorem handleAPDU_transmit_ok_witness :
    unmarshalCommandAPDUPayload demoEnv
        (some (.obj [("func", .str "transmit"), ("param", .str "AB")]))
        = .ok { Func := "transmit", Param := [65, 66] }
      ∧ demoEnv.Transmit demoState.trace [65, 66] = .ok [65, 66, 144, 0]
      ∧ (handleAPDU demoEnv
          (some (.obj [("func", .str "transmit"), ("param", .str "AB")])) demoState).1.trace
        = [⟨.transmit [65, 66], 0⟩, ⟨.write (dataReply [65, 66, 144, 0]), 0⟩] := by
  have h := handleAPDU_transmit_ok String demoEnv
    (some (.obj [("func", .str "transmit"), ("param", .str "AB")])) demoState
    { Func := "transmit", Param := [65, 66] } [65, 66, 144, 0] rfl rfl rfl
  refine ⟨rfl, rfl, ?_⟩
  rw [h]
  rfl

/-! ## The scan loop -/

/-- The loop over a concatenation: an error in the first part ends it. -/
theorem scan_append (δ : Type) (env : Env) (dst : Option (Target δ))
    (progress : Option Progress) (pre post : List String) (s : State δ) :
    scan env dst progress (pre ++ post) s
      = match scan env dst progress pre s with
        | (s1, some err) => (s1, some err)
        | (s1, none) => scan env dst progress post s1 := by
  induction pre generalizing s with
  | nil => simp [scan]
  | cons output rest ih =>
    simp only [List.cons_append, scan]
    rcases h : handleOutput env output dst progress s with ⟨s1, _ | err⟩
    · simp [ih]
    · simp

/-- The loop stops at a line whose handling fails, once the lines before it
were handled without error. -/
theorem scan_stops (δ : Type) (env : Env) (dst : Option (Target δ))
    (progress : Option Progress) (pre post : List String) (output : String)
    (s s1 s2 : State δ) (err : GoError)
    (hpre : scan env dst progress pre s = (s1, none))
    (hout : handleOutput env output dst progress s1 = (s2, some err)) :
    scan env dst progress (pre ++ output :: post) s = (s2, some err) := by
  rw [scan_append, hpre]
  simp [scan, hout]

/-- The loop goes on after a line handled without error. -/
theorem scan_continues (δ : Type) (env : Env) (dst : Option (Target δ))
    (progress : Option Progress) (pre post : List String) (output : String)
    (s s1 s2 : State δ)
    (hpre : scan env dst progress pre s = (s1, none))
    (hout : handleOutput env output dst progress s1 = (s2, none)) :
    scan env dst progress (pre ++ output :: post) s = scan env dst progress post s2 := by
  rw [scan_append, hpre]
  simp [scan, hout]

/-- The loop returns nil, or the error of a line whose handling failed after
all the lines before it were handled without error. -/
theorem scan_result (δ : Type) (env : Env) (dst : Option (Target δ))
    (progress : Option Progress) (lines : List String) (s : State δ) :
    (scan env dst progress lines s).2 = none
      ∨ ∃ pre output post s1 err, lines = pre ++ output :: post
          ∧ scan env dst progress pre s = (s1, none)
          ∧ (handleOutput env output dst progress s1).2 = some err
          ∧ (scan env dst progress lines s).2 = some err := by
  induction lines generalizing s with
  | nil => exact Or.inl rfl
  | cons output rest ih =>
    rcases h : handleOutput env output dst progress s with ⟨s1, _ | err⟩
    · rcases ih s1 with h1 | ⟨pre, out1, post, s2, err, hl, hp, ho, hr⟩
      · left
        simp [scan, h, h1]
      · right
        refine ⟨output :: pre, out1, post, s2, err, by simp [hl], ?_, ho, ?_⟩
        · simp [scan, h, hp]
        · simp [scan, h, hr]
    · right
      exact ⟨[], output, rest, s, err, rfl, rfl, by rw [h], by simp [scan, h]⟩

/-- What `handleOutput` does with a line that is a well-formed envelope. -/
theorem handleOutput_envelope (δ : Type) (env : Env) (output : String)
    (dst : Option (Target δ)) (progress : Option Progress) (s : State δ)
    (commandOutput : CommandOutput)
    (hd : unmarshalCommandOutput env output = .ok commandOutput) :
    (commandOutput.Type_ = CommandStdioAPDU →
        handleOutput env output dst progress s
          = handleAPDU env commandOutput.Payload (s.log (.dispatch output)))
      ∧ (commandOutput.Type_ = CommandStdioLPA →
        handleOutput env output dst progress s
          = handleLPAResponse env commandOutput.Payload dst (s.log (.dispatch output))) := by
  constructor
  · intro h
    simp [handleOutput, hd, h]
  · intro h
    have hne : ¬ CommandStdioLPA = CommandStdioAPDU := by decide
    simp [handleOutput, hd, h, hne]

/-! ## The lock is left alone between acquisition and release -/

/-- Every state extends itself. -/
theorem Extends.refl (δ : Type) (s : State δ) : Extends s s :=
  ⟨rfl, [], by simp, by intro e he; simp at he⟩

/-- Extension composes. -/
theorem Extends.trans (δ : Type) (s s1 s2 : State δ) (h1 : Extends s s1)
    (h2 : Extends s1 s2) : Extends s s2 := by
  obtain ⟨hl1, evs1, ht1, hq1⟩ := h1
  obtain ⟨hl2, evs2, ht2, hq2⟩ := h2
  refine ⟨by rw [hl2, hl1], evs1 ++ evs2, by rw [ht2, ht1, List.append_assoc], ?_⟩
  intro e he
  rcases List.mem_append.mp he with h | h
  · exact hq1 e h
  · rw [← hl1]
    exact hq2 e h

/-- Logging an operation other than lock and unlock extends the state,
whatever happens to the destination. -/
theorem Extends.log (δ : Type) (s : State δ) (d : δ) (op : Op) (h1 : op ≠ .lock)
    (h2 : op ≠ .unlock) :
    Extends s { lock := s.lock, trace := s.trace ++ [⟨op, s.lock⟩], dst := d } := by
  refine ⟨rfl, [⟨op, s.lock⟩], rfl, ?_⟩
  intro e he
  simp only [List.mem_singleton] at he
  subst he
  exact ⟨rfl, h1, h2⟩

/-- The handler `handleAPDU` leaves the lock alone. -/
theorem handleAPDU_extends (δ : Type) (env : Env) (payload : RawMessage) (s : State δ) :
    Extends s (handleAPDU env payload s).1 := by
  unfold handleAPDU
  cases unmarshalCommandAPDUPayload env payload with
  | error err => exact Extends.refl δ s
  | ok command =>
    by_cases hf : command.Func = CommandAPDUFuncTransmit
    · simp only [hf, if_true]
      cases env.Transmit s.trace command.Param with
      | error err => exact Extends.log δ s s.dst _ (by simp) (by simp)
      | ok received =>
        exact Extends.trans δ s _ _ (Extends.log δ s s.dst (.transmit command.Param)
          (by simp) (by simp)) (Extends.log δ _ s.dst _ (by simp) (by simp))
    · simp only [hf, if_false]
      exact Extends.log δ s s.dst _ (by simp) (by simp)

/-- The handler `handleProgress` leaves the lock alone. -/
theorem handleProgress_extends (δ : Type) (env : Env) (payload : RawMessage)
    (progress : Progress) (s : State δ) :
    Extends s (handleProgress env payload progress s).1 := by
  unfold handleProgress
  cases unmarshalProgressPayload env payload with
  | error err => exact Extends.refl δ s
  | ok p =>
    simp only
    cases env.HumanReadableSteps p.Message with
    | none => exact Extends.log δ s s.dst (.progress p.Message) (by simp) (by simp)
    | some step => exact Extends.log δ s s.dst (.progress step) (by simp) (by simp)

/-- The handler `handleLPAResponse` leaves the lock alone. -/
theorem handleLPAResponse_extends (δ : Type) (env : Env) (payload : RawMessage)
    (dst : Option (Target δ)) (s : State δ) :
    Extends s (handleLPAResponse env payload dst s).1 := by
  unfold handleLPAResponse
  cases unmarshalLPAPyaload env payload with
  | error err => exact Extends.refl δ s
  | ok p =>
    by_cases hc : p.Code = 0
    · simp only [hc, ne_eq, not_true_eq_false, if_false]
      cases dst with
      | none => exact Extends.refl δ s
      | some target =>
        cases hdata : p.Data with
        | none => exact Extends.log δ s s.dst _ (by simp) (by simp)
        | some j => exact Extends.log δ s _ _ (by simp) (by simp)
    · simp only [hc, ne_eq, not_false_eq_true, if_true]
      cases unmarshalRaw (fun j => unmarshalString j "") p.Data with
      | error err => exact Extends.refl δ s
      | ok errorMessage =>
        by_cases he : errorMessage = ""
        · simp only [he, if_true]
          exact Extends.refl δ s
        · simp only [he, if_false]
          exact Extends.refl δ s

/-- The dispatcher `handleOutput` leaves the lock alone. -/
theorem handleOutput_extends (δ : Type) (env : Env) (output : String)
    (dst : Option (Target δ)) (progress : Option Progress) (s : State δ) :
    Extends s (handleOutput env output dst progress s).1 := by
  have h0 : Extends s (s.log (.dispatch output)) :=
    Extends.log δ s s.dst _ (by simp) (by simp)
  unfold handleOutput
  simp only
  cases unmarshalCommandOutput env output with
  | error err => exact h0
  | ok co =>
    simp only
    split
    · exact Extends.trans δ _ _ _ h0 (handleAPDU_extends δ env _ _)
    · split
      · exact Extends.trans δ _ _ _ h0 (handleLPAResponse_extends δ env _ _ _)
      · split
        · cases progress with
          | none => exact h0
          | some p => exact Extends.trans δ _ _ _ h0 (handleProgress_extends δ env _ _ _)
        · exact h0

/-- The scan loop leaves the lock alone. -/
theorem scan_extends (δ : Type) (env : Env) (dst : Option (Target δ))
    (progress : Option Progress) (lines : List String) (s : State δ) :
    Extends s (scan env dst progress lines s).1 := by
  induction lines generalizing s with
  | nil => exact Extends.refl δ s
  | cons output rest ih =>
    have h1 := handleOutput_extends δ env output dst progress s
    simp only [scan]
    rcases h : handleOutput env output dst progress s with ⟨s1, _ | err⟩
    · rw [h] at h1
      exact Extends.trans δ _ _ _ h1 (ih s1)
    · rw [h] at h1
      exact h1

/-! ## Sessions -/

/-- C5: for an apdu payload that decodes with the selector `transmit`, if
the transport call returns an error then `handleAPDU` returns that error
having written nothing (the transport call is the only entry it appends);
and when such an envelope is met by `Run` after lines handled without
error, `Run` returns that error and the trace ends with the dispatch of that
line, the transport call and the deferred calls: no later line is
dispatched. -/
theorem Run_transmit_failure (δ : Type) (env : Env) (arguments : List String)
    (pre post : List String) (output : String) (dst : Option (Target δ))
    (progress : Option Progress) (s s1 : State δ) (commandOutput : CommandOutput)
    (command : CommandAPDUPayload) (err : GoError)
    (hpre : scan env dst progress pre (entered arguments s) = (s1, none))
    (hd : unmarshalCommandOutput env output = .ok commandOutput)
    (hty : commandOutput.Type_ = CommandStdioAPDU)
    (hc : unmarshalCommandAPDUPayload env commandOutput.Payload = .ok command)
    (hf : command.Func = CommandAPDUFuncTransmit)
    (ht : env.Transmit (s1.trace ++ [⟨.dispatch output, s1.lock⟩]) command.Param
        = .error err) :
    (∀ (s2 : State δ) (e : GoError), env.Transmit s2.trace command.Param = .error e →
        handleAPDU env commandOutput.Payload s2
          = ({ s2 with trace := s2.trace ++ [⟨.transmit command.Param, s2.lock⟩] }, some e))
      ∧ Run env arguments (.ok (pre ++ output :: post)) dst progress s
        = (deferred { s1 with trace := s1.trace ++
              [⟨.dispatch output, s1.lock⟩, ⟨.transmit command.Param, s1.lock⟩] },
           some err) := by
  have hA : ∀ (s2 : State δ) (e : GoError), env.Transmit s2.trace command.Param = .error e →
      handleAPDU env commandOutput.Payload s2
        = ({ s2 with trace := s2.trace ++ [⟨.transmit command.Param, s2.lock⟩] }, some e) := by
    intro s2 e h2
    unfold handleAPDU
    rw [hc]
    simp [hf, h2, State.log]
  refine ⟨hA, ?_⟩
  have hout : handleOutput env output dst progress s1
      = ({ s1 with trace := s1.trace ++
            [⟨.dispatch output, s1.lock⟩, ⟨.transmit command.Param, s1.lock⟩] },
         some err) := by
    rw [(handleOutput_envelope δ env output dst progress s1 commandOutput hd).1 hty,
      hA (s1.log (.dispatch output)) err (by simpa [State.log] using ht)]
    simp [State.log]
  have hs := scan_stops δ env dst progress pre post output _ s1 _ err hpre hout
  simp only [Run]
  rw [show (s.Lock).log (.start arguments) = entered arguments s from rfl, hs]

/-- Witness of C5 in the sample world with the failing transport: of the
lines `step`, `tx`, `done` the last is never dispatched. -/
theorem Run_transmit_failure_witness :
    (Run brokenEnv [] (.ok (["step"] ++ "tx" :: ["done"])) (some demoTarget)
        (some demoProgress) demoState).2 = some (.external "card removed")
      ∧ (Run brokenEnv [] (.ok (["step"] ++ "tx" :: ["done"])) (some demoTarget)
        (some demoProgress) demoState).1.trace
        = [⟨.lock, 1⟩, ⟨.start [], 1⟩, ⟨.dispatch "step", 1⟩,
           ⟨.progress "Downloading profile", 1⟩, ⟨.dispatch "tx", 1⟩,
           ⟨.transmit [65, 66], 1⟩, ⟨.closeStdin, 1⟩, ⟨.closeStdout, 1⟩, ⟨.unlock, 0⟩] := by
  have h := (Run_transmit_failure String brokenEnv [] ["step"] ["done"] "tx"
    (some demoTarget) (some demoProgress) demoState
    (scan brokenEnv (some demoTarget) (some demoProgress) ["step"] (entered [] demoState)).1
    { Type_ := "apdu",
      Payload := some (.obj [("func", .str "transmit"), ("param", .str "AB")]) }
    { Func := "transmit", Param := [65, 66] } (.external "card removed")
    rfl rfl rfl rfl rfl rfl).2
  rw [h]
  exact ⟨rfl, rfl⟩

/-- C6: once the lines before it were handled without error, a line whose
decoding or handling fails makes `Run` return that error with the state that
line left, followed only by the deferred calls: no line after it is
dispatched.  In particular a line that is not a well-formed envelope makes
`Run` return its decode error with nothing but the dispatch of that line
and the deferred calls appended (no transport call, reply, destination
write or callback), the destination as the earlier lines left it and the
lock counter (the last component) back at its value before `Run`.  And for every sequence of lines `Run` returns nil or the
error of such a first failing line. -/
theorem Run_first_failure (δ : Type) (env : Env) (arguments : List String)
    (pre post : List String) (output : String) (dst : Option (Target δ))
    (progress : Option Progress) (s s1 : State δ)
    (hpre : scan env dst progress pre (entered arguments s) = (s1, none)) :
    (∀ err, (handleOutput env output dst progress s1).2 = some err →
        Run env arguments (.ok (pre ++ output :: post)) dst progress s
          = (deferred (handleOutput env output dst progress s1).1, some err))
      ∧ (∀ err, unmarshalCommandOutput env output = .error err →
        Run env arguments (.ok (pre ++ output :: post)) dst progress s
          = ({ lock := s1.lock - 1,
               trace := s1.trace ++ [⟨.dispatch output, s1.lock⟩, ⟨.closeStdin, s1.lock⟩,
                 ⟨.closeStdout, s1.lock⟩, ⟨.unlock, s1.lock - 1⟩],
               dst := s1.dst }, some err))
      ∧ (∀ lines, (Run env arguments (.ok lines) dst progress s).2 = none
          ∨ ∃ pre1 out1 post1 st err, lines = pre1 ++ out1 :: post1
            ∧ scan env dst progress pre1 (entered arguments s) = (st, none)
            ∧ (handleOutput env out1 dst progress st).2 = some err
            ∧ (Run env arguments (.ok lines) dst progress s).2 = some err)
      ∧ s1.lock - 1 = s.lock := by
  have key : ∀ err, (handleOutput env output dst progress s1).2 = some err →
      Run env arguments (.ok (pre ++ output :: post)) dst progress s
        = (deferred (handleOutput env output dst progress s1).1, some err) := by
    intro err h
    have hout : handleOutput env output dst progress s1
        = ((handleOutput env output dst progress s1).1, some err) := by
      rw [← h]
    have hs := scan_stops δ env dst progress pre post output _ s1 _ err hpre hout
    simp only [Run]
    rw [show (s.Lock).log (.start arguments) = entered arguments s from rfl, hs]
  have hlock : s1.lock - 1 = s.lock := by
    have h := (scan_extends δ env dst progress pre (entered arguments s)).1
    rw [hpre] at h
    simp only at h
    rw [h]
    simp [entered, State.log, State.Lock]
  refine ⟨key, ?_, fun lines => scan_result δ env dst progress lines (entered arguments s),
    hlock⟩
  intro err hd
  have hout : handleOutput env output dst progress s1 = (s1.log (.dispatch output), some err) := by
    simp [handleOutput, hd]
  rw [key err (by rw [hout]), hout]
  simp [deferred, State.log, State.Unlock]

/-- Witness of C6 in the sample world: of the lines `tx`, `garbage`, `done`
the second is not valid JSON and ends the session. -/
theorem Run_first_failure_witness :
    scan demoEnv (some demoTarget) (some demoProgress) ["tx"] (entered [] demoState)
        = ({ lock := 1,
             trace := [⟨.lock, 1⟩, ⟨.start [], 1⟩, ⟨.dispatch "tx", 1⟩,
               ⟨.transmit [65, 66], 1⟩, ⟨.write (dataReply [65, 66, 144, 0]), 1⟩],
             dst := "" }, none)
      ∧ unmarshalCommandOutput demoEnv "garbage" = .error (.invalidJSON "invalid character")
      ∧ Run demoEnv [] (.ok (["tx"] ++ "garbage" :: ["done"])) (some demoTarget)
          (some demoProgress) demoState
        = ({ lock := 0,
             trace := [⟨.lock, 1⟩, ⟨.start [], 1⟩, ⟨.dispatch "tx", 1⟩,
               ⟨.transmit [65, 66], 1⟩, ⟨.write (dataReply [65, 66, 144, 0]), 1⟩,
               ⟨.dispatch "garbage", 1⟩, ⟨.closeStdin, 1⟩, ⟨.closeStdout, 1⟩,
               ⟨.unlock, 0⟩],
             dst := "" }, some (.invalidJSON "invalid character")) :=
  ⟨rfl, rfl,
   (Run_first_failure String demoEnv [] ["tx"] ["done"] "garbage" (some demoTarget)
      (some demoProgress) demoState _ rfl).2.1 (.invalidJSON "invalid character") rfl⟩

/-- C7 fails as stated: in the sample world the lines `done`, `fail` are two
lpa envelopes, the first with code 0; the second is dispatched all the same
and `Run` returns its error, not the nil outcome of the first. -/
theorem Run_goes_on_after_lpa_success :
    unmarshalCommandOutput demoEnv "done"
        = .ok { Type_ := "lpa",
                Payload := some (.obj [("code", .int 0), ("message", .str "success"),
                  ("data", .str "ok")]) }
      ∧ Run demoEnv [] (.ok ["done", "fail"]) (some demoTarget) none demoState
        = ({ lock := 0,
             trace := [⟨.lock, 1⟩, ⟨.start [], 1⟩, ⟨.dispatch "done", 1⟩, ⟨.unmarshalDst, 1⟩,
               ⟨.dispatch "fail", 1⟩, ⟨.closeStdin, 1⟩, ⟨.closeStdout, 1⟩, ⟨.unlock, 0⟩],
             dst := "ok" }, some (.errorsNew "bad profile")) :=
  ⟨rfl, rfl⟩

/-- C7 as amended: for an lpa envelope met after lines handled without
error, if the Response handler returns an error (a nonzero code, or a payload
or destination that fails to decode) the scan loop ends there: `Run` returns
that error and dispatches no later line; if it returns nil (code 0) the loop
goes on with the lines that follow, and `Run` returns what they yield, which
is nil with the state the envelope left when it is the last line. -/
theorem Run_lpa_envelope (δ : Type) (env : Env) (arguments : List String)
    (pre post : List String) (output : String) (dst : Option (Target δ))
    (progress : Option Progress) (s s1 : State δ) (commandOutput : CommandOutput)
    (hpre : scan env dst progress pre (entered arguments s) = (s1, none))
    (hd : unmarshalCommandOutput env output = .ok commandOutput)
    (hty : commandOutput.Type_ = CommandStdioLPA) :
    (∀ err, (handleLPAResponse env commandOutput.Payload dst
          (s1.log (.dispatch output))).2 = some err →
        Run env arguments (.ok (pre ++ output :: post)) dst progress s
          = (deferred (handleLPAResponse env commandOutput.Payload dst
              (s1.log (.dispatch output))).1, some err))
      ∧ ((handleLPAResponse env commandOutput.Payload dst
          (s1.log (.dispatch output))).2 = none →
        Run env arguments (.ok (pre ++ output :: post)) dst progress s
          = (deferred (scan env dst progress post (handleLPAResponse env
              commandOutput.Payload dst (s1.log (.dispatch output))).1).1,
             (scan env dst progress post (handleLPAResponse env
              commandOutput.Payload dst (s1.log (.dispatch output))).1).2)
        ∧ Run env arguments (.ok (pre ++ [output])) dst progress s
          = (deferred (handleLPAResponse env commandOutput.Payload dst
              (s1.log (.dispatch output))).1, none)) := by
  have hout := (handleOutput_envelope δ env output dst progress s1 commandOutput hd).2 hty
  have hrun : ∀ lines, Run env arguments (.ok lines) dst progress s
      = (deferred (scan env dst progress lines (entered arguments s)).1,
         (scan env dst progress lines (entered arguments s)).2) := fun _ => rfl
  constructor
  · intro err h
    have h2 : handleOutput env output dst progress s1
        = ((handleLPAResponse env commandOutput.Payload dst (s1.log (.dispatch output))).1,
           some err) := by
      rw [hout, ← h]
    rw [hrun, scan_stops δ env dst progress pre post output _ s1 _ err hpre h2]
  · intro h
    have h2 : handleOutput env output dst progress s1
        = ((handleLPAResponse env commandOutput.Payload dst (s1.log (.dispatch output))).1,
           none) := by
      rw [hout, ← h]
    constructor
    · rw [hrun, scan_continues δ env dst progress pre post output _ s1 _ hpre h2]
    · rw [hrun, scan_continues δ env dst progress pre [] output _ s1 _ hpre h2]
      simp [scan]

/-- Witness of the amended C7 in the sample world: after `tx`, the lpa
envelope `fail` ends the session with its error and `done` is never
dispatched. -/
theorem Run_lpa_envelope_witness :
    scan demoEnv (some demoTarget) (some demoProgress) ["tx"] (entered [] demoState)
        = ({ lock := 1,
             trace := [⟨.lock, 1⟩, ⟨.start [], 1⟩, ⟨.dispatch "tx", 1⟩,
               ⟨.transmit [65, 66], 1⟩, ⟨.write (dataReply [65, 66, 144, 0]), 1⟩],
             dst := "" }, none)
      ∧ Run demoEnv [] (.ok (["tx"] ++ "fail" :: ["done"])) (some demoTarget)
          (some demoProgress) demoState
        = ({ lock := 0,
             trace := [⟨.lock, 1⟩, ⟨.start [], 1⟩, ⟨.dispatch "tx", 1⟩,
               ⟨.transmit [65, 66], 1⟩, ⟨.write (dataReply [65, 66, 144, 0]), 1⟩,
               ⟨.dispatch "fail", 1⟩, ⟨.closeStdin, 1⟩, ⟨.closeStdout, 1⟩,
               ⟨.unlock, 0⟩],
             dst := "" }, some (.errorsNew "bad profile")) :=
  ⟨rfl,
   (Run_lpa_envelope String demoEnv [] ["tx"] ["done"] "fail" (some demoTarget)
      (some demoProgress) demoState _
      { Type_ := "lpa",
        Payload := some (.obj [("code", .int 1), ("message", .str "failed"),
          ("data", .str "bad profile")]) }
      rfl rfl rfl).1 (.errorsNew "bad profile") rfl⟩

/-! ## The cancellation channel -/

/-- C8 fails as stated: the first `Terminate` on a fresh `Cmder` fills the
slot, and a second one, with that value still pending and no goroutine
receiving, blocks. -/
theorem Terminate_blocks_on_pending :
    Terminate NewCmder = some { cap := 1, buf := 1, recvq := 0 }
      ∧ Terminate { cap := 1, buf := 1, recvq := 0 } = none := by
  decide

/-- C8 as amended: on the single-slot channel `Terminate` returns exactly
when no cancellation is pending in the slot, and then leaves at most one
pending cancellation in a channel that is still well formed; when a
cancellation is pending it blocks. -/
theorem Terminate_returns_iff_slot_free (ch : Chan) (hcap : ch.cap = 1) (hwf : ch.WF) :
    ((Terminate ch).isSome ↔ ch.buf = 0)
      ∧ (∀ ch1, Terminate ch = some ch1 → ch1.buf ≤ 1 ∧ ch1.cap = 1 ∧ ch1.WF) := by
  rcases ch with ⟨cap, buf, recvq⟩
  simp only [Chan.WF] at hwf
  simp only at hcap
  subst hcap
  obtain ⟨h1, h2⟩ := hwf
  constructor
  · constructor
    · intro h
      by_contra hb
      have hb1 : 0 < buf := Nat.pos_of_ne_zero hb
      have hr : recvq = 0 := h2 hb1
      have : ¬ buf < 1 := by omega
      simp [Terminate, Chan.send, hr, this] at h
    · intro hb
      simp only at hb
      subst hb
      by_cases hr : 0 < recvq <;> simp [Terminate, Chan.send, hr]
  · intro ch1 h
    simp only [Terminate, Chan.send] at h
    by_cases hr : 0 < recvq
    · simp only [hr, if_true, Option.some.injEq] at h
      subst h
      have hb : buf = 0 := by
        by_contra hb
        have := h2 (Nat.pos_of_ne_zero hb)
        omega
      subst hb
      simp [Chan.WF]
    · simp only [hr, if_false] at h
      by_cases hb : buf < 1
      · simp only [hb, if_true, Option.some.injEq] at h
        subst h
        have hr0 : recvq = 0 := by omega
        have hb0 : buf = 0 := by omega
        simp [Chan.WF, hr0, hb0]
      · simp [hb] at h

/-- The channel of a fresh `Cmder` is well formed, and a watcher's receive
keeps a channel well formed: with the second part of C8 as amended, every
state the channel reaches is. -/
theorem Chan.WF_recv (ch : Chan) (hwf : ch.WF) : NewCmder.WF ∧ ch.recv.WF := by
  refine ⟨by decide, ?_⟩
  rcases ch with ⟨cap, buf, recvq⟩
  simp only [Chan.WF] at hwf
  obtain ⟨h1, h2⟩ := hwf
  by_cases hb : 0 < buf
  · have hr := h2 hb
    simp only [Chan.recv, hb, if_true, Chan.WF]
    exact ⟨by omega, fun _ => hr⟩
  · simp only [Chan.recv, hb, if_false, Chan.WF]
    exact ⟨h1, fun h => by first | exact absurd h hb | exact h.elim⟩

/-- Witness of the amended C8 on the channel of a fresh `Cmder`. -/
theorem Terminate_returns_iff_slot_free_witness :
    NewCmder.cap = 1 ∧ NewCmder.WF ∧ (Terminate NewCmder).isSome :=
  ⟨rfl, by decide,
   (Terminate_returns_iff_slot_free NewCmder rfl (by decide)).1.2 rfl⟩

/-! ## The lock discipline of `Run` -/

/-- C1: from a state whose lock counter is 0, `Run` ends with the counter at
0, whatever the outcome of the start and of the lines.  Its trace is that of
the state before, then the lock (counter 1), then the start of the
subprocess, then operations that are all stamped with the counter 1 and are
neither a lock nor an unlock (every dispatch, transport call, reply,
destination write, callback and close), then the one unlock (counter 0). -/
theorem Run_lock_discipline (δ : Type) (env : Env) (arguments : List String)
    (proc : Except GoError (List String)) (dst : Option (Target δ))
    (progress : Option Progress) (s : State δ) (h0 : s.lock = 0) :
    (Run env arguments proc dst progress s).1.lock = 0
      ∧ ∃ mid, (Run env arguments proc dst progress s).1.trace
          = s.trace ++ ⟨.lock, 1⟩ :: ⟨.start arguments, 1⟩ :: (mid ++ [⟨.unlock, 0⟩])
        ∧ ∀ e ∈ mid, e.held = 1 ∧ e.op ≠ .lock ∧ e.op ≠ .unlock := by
  cases proc with
  | error err =>
    refine ⟨by simp [Run, deferred, State.log, State.Lock, State.Unlock, h0],
      [⟨.closeStdin, 1⟩, ⟨.closeStdout, 1⟩], ?_, ?_⟩
    · simp [Run, deferred, State.log, State.Lock, State.Unlock, h0]
    · intro e he
      simp only [List.mem_cons, List.mem_singleton, List.not_mem_nil, or_false] at he
      rcases he with rfl | rfl <;> simp
  | ok lines =>
    obtain ⟨hl, evs, ht, hq⟩ := scan_extends δ env dst progress lines (entered arguments s)
    have hlock : (entered arguments s).lock = 1 := by
      simp [entered, State.log, State.Lock, h0]
    have htr : (entered arguments s).trace = s.trace ++ [⟨.lock, 1⟩, ⟨.start arguments, 1⟩] := by
      simp [entered, State.log, State.Lock, h0]
    rw [hlock] at hl hq
    rw [htr] at ht
    have hrun : Run env arguments (.ok lines) dst progress s
        = (deferred (scan env dst progress lines (entered arguments s)).1,
           (scan env dst progress lines (entered arguments s)).2) := rfl
    rw [hrun]
    refine ⟨by simp [deferred, State.log, State.Unlock, hl],
      evs ++ [⟨.closeStdin, 1⟩, ⟨.closeStdout, 1⟩], ?_, ?_⟩
    · simp [deferred, State.log, State.Unlock, hl, ht]
    · intro e he
      rcases List.mem_append.mp he with h | h
      · exact hq e h
      · simp only [List.mem_cons, List.mem_singleton, List.not_mem_nil, or_false] at h
        rcases h with rfl | rfl <;> simp

/-- Witness of C1 in the sample world, on a session of three lines. -/
theorem Run_lock_discipline_witness :
    demoState.lock = 0
      ∧ (Run demoEnv [] (.ok ["tx", "step", "done"]) (some demoTarget)
          (some demoProgress) demoState).1.lock = 0 :=
  ⟨rfl, (Run_lock_discipline String demoEnv [] (.ok ["tx", "step", "done"])
    (some demoTarget) (some demoProgress) demoState rfl).1⟩

end Lpac
